import Mathlib

/-!
Shallow embedding of the RayTracerMinecraft rendering core.

The Rust program works on `f32`; the embedding idealises machine reals as
exact rationals (`ℚ`).  The two transcendental operations used by the code
(`sqrt` from `magnitude`/`normalize`, and `powf`) have no exact rational
counterpart, so they are threaded through the embedding as an abstract
record of operations (`FloatOps`); every definition below is parametric in
it and every theorem holds for an arbitrary interpretation of those two
operations unless it explicitly hypothesises more.

Fallible operations (Rust panics: out-of-bounds indexing, `%` by zero) are
modelled with `Option`, `none` standing for the panic.
-/

namespace Raytracer

/-- Abstract interpretations of the two real-valued operations (`sqrt`,
`powf`) that have no exact rational counterpart. -/
structure FloatOps where
  sqrt : ℚ → ℚ
  powf : ℚ → ℚ → ℚ

/-- The `nalgebra_glm::Vec3`, idealised over `ℚ`. -/
structure Vec3 where
  x : ℚ
  y : ℚ
  z : ℚ
deriving DecidableEq

instance : Add Vec3 := ⟨fun a b => ⟨a.x + b.x, a.y + b.y, a.z + b.z⟩⟩

instance : Sub Vec3 := ⟨fun a b => ⟨a.x - b.x, a.y - b.y, a.z - b.z⟩⟩

instance : Neg Vec3 := ⟨fun a => ⟨-a.x, -a.y, -a.z⟩⟩

/-- Scalar multiplication `v * s` of a vector by a float. -/
def Vec3.smul (s : ℚ) (v : Vec3) : Vec3 := ⟨s * v.x, s * v.y, s * v.z⟩

/-- The `nalgebra` dot product. -/
def Vec3.dot (a b : Vec3) : ℚ := a.x * b.x + a.y * b.y + a.z * b.z

/-- The `component_mul`: component-wise product. -/
def Vec3.componentMul (a b : Vec3) : Vec3 := ⟨a.x * b.x, a.y * b.y, a.z * b.z⟩

/-- The `component_div`: component-wise quotient.  (In `f32` a zero divisor
produces an infinity; in `ℚ` division by zero yields `0`, so theorems about
rays only claim fidelity when every direction component is nonzero.) -/
def Vec3.componentDiv (a b : Vec3) : Vec3 := ⟨a.x / b.x, a.y / b.y, a.z / b.z⟩

/-- The `magnitude`: Euclidean norm, via the abstract square root. -/
def Vec3.magnitude (F : FloatOps) (v : Vec3) : ℚ := F.sqrt (Vec3.dot v v)

/-- The `normalize`: `v / |v|`. -/
def Vec3.normalize (F : FloatOps) (v : Vec3) : Vec3 :=
  let m := Vec3.magnitude F v
  ⟨v.x / m, v.y / m, v.z / m⟩

/-- Rust's saturating float-to-`usize` cast: truncation toward zero with
negative values collapsed to `0`.  For every rational input this agrees
with `Int.toNat ∘ Int.floor` (truncation and floor differ only on negative
non-integers, which both collapse to `0`). -/
def ratAsUsize (q : ℚ) : ℕ := (⌊q⌋ : ℤ).toNat

/-- Rust `%` on `usize`: panics (here `none`) when the divisor is zero. -/
def usizeMod (a b : ℕ) : Option ℕ := if b = 0 then none else some (a % b)

/-- Modelled from the spec: `Color` (`src/color.rs` is not part of the
sources) — a triplet of 8-bit channels with saturating arithmetic. -/
structure Color where
  r : ℕ
  g : ℕ
  b : ℕ
deriving DecidableEq

/-- Modelled from the spec: `Color::new`, clamping each channel to 8 bits. -/
def Color.new (r g b : ℕ) : Color := ⟨min r 255, min g 255, min b 255⟩

/-- Modelled from the spec: the distinguished black color. -/
def Color.black : Color := Color.new 0 0 0

/-- Modelled from the spec: saturating per-channel addition. -/
instance : Add Color := ⟨fun a b => ⟨min (a.r + b.r) 255, min (a.g + b.g) 255, min (a.b + b.b) 255⟩⟩

/-- Modelled from the spec: scalar multiplication `c * s`, per channel,
clamped to `[0, 255]` (negative scalars clamp to `0`). -/
def Color.mulScalar (c : Color) (s : ℚ) : Color :=
  ⟨min (ratAsUsize (s * c.r)) 255, min (ratAsUsize (s * c.g)) 255, min (ratAsUsize (s * c.b)) 255⟩

/-- The `Texture` (`src/texture.rs`): raw RGBA bytes with dimensions. -/
structure Texture where
  data : List ℕ
  width : ℕ
  height : ℕ
deriving DecidableEq

/-- The `Texture::get_color` (`src/texture.rs`): nearest-neighbour lookup.
UV is scaled by the image size, cast to `usize` (saturating) and reduced
modulo the size; the four-byte RGBA pixel is then read, returning RGB.
Out-of-bounds reads and `% 0` are Rust panics, modelled by `none`. -/
def Texture.get_color (t : Texture) (u v : ℚ) : Option Color :=
  (usizeMod (ratAsUsize (u * t.width)) t.width).bind fun x =>
  (usizeMod (ratAsUsize (v * t.height)) t.height).bind fun y =>
  let index := (y * t.width + x) * 4
  (t.data.get? index).bind fun r =>
  (t.data.get? (index + 1)).bind fun g =>
  (t.data.get? (index + 2)).bind fun b =>
  some (Color.new r g b)

/-- Modelled from the spec: `texture.sample` (the name the shader and the
spec use for the lookup; `src/texture.rs` implements it as `get_color`). -/
def Texture.sample (t : Texture) (u v : ℚ) : Option Color := t.get_color u v

/-- The `Material` (`src/material.rs`); `properties` is the 4-array
`[diffuse, specular, reflectivity, transparency]`, modelled as a quadruple.
The `textures` bank is modelled from the spec (the field is used by
`main.rs` but absent from the `material.rs` snapshot in the sources). -/
structure Material where
  color : Color
  shininess : ℚ
  properties : ℚ × ℚ × ℚ × ℚ
  refractive_index : ℚ
  textures : List Texture
deriving DecidableEq

/-- The `Material::new` (texture bank empty, per the spec's default). -/
def Material.new (color : Color) (shininess : ℚ) (properties : ℚ × ℚ × ℚ × ℚ)
    (refractive_index : ℚ) : Material :=
  ⟨color, shininess, properties, refractive_index, []⟩

/-- Modelled from the spec: the `with_textures` builder of `Material`. -/
def Material.with_textures (m : Material) (ts : List Texture) : Material :=
  { m with textures := ts }

/-- The `Material::black`. -/
def Material.black : Material := Material.new (Color.new 0 0 0) 0 (0, 0, 0, 0) 1

/-- Modelled from the spec: the face-class enumeration `CubeFace`
(`main.rs` matches on `CubeFace::Top`; the enum itself is not in the
sources).  `Top` is `+Y`, `Bottom` is `-Y`. -/
inductive CubeFace where
  | NegX
  | PosX
  | Bottom
  | Top
  | NegZ
  | PosZ
deriving DecidableEq

/-- The `Cube` (`src/cube.rs`): axis-aligned box with a top material, a side
material and a (stringly-typed) visible-face list. -/
structure Cube where
  min : Vec3
  max : Vec3
  top_material : Material
  side_material : Material
  visible_faces : List String
deriving DecidableEq

/-- The `Cube::new`: one material for every face. -/
def Cube.new (min max : Vec3) (material : Material) : Cube :=
  ⟨min, max, material, material, ["top", "left_right", "front_back"]⟩

/-- The `Light` (`src/light.rs`): point light with a color, an intensity and
an influence radius. -/
structure Light where
  position : Vec3
  color : Color
  intensity : ℚ
  radius : ℚ
deriving DecidableEq

/-- The `Intersect` (`src/ray_intersect.rs`).  The `face` field is modelled
from the spec (`main.rs` reads `intersect.face`, the record in
`ray_intersect.rs` predates it). -/
structure Intersect where
  point : Vec3
  normal : Vec3
  distance : ℚ
  is_intersecting : Bool
  material : Material
  object : Cube
  face : CubeFace
deriving DecidableEq

/-- The `Intersect::new`, extended with the spec-modelled hit face. -/
def Intersect.new (point normal : Vec3) (distance : ℚ) (material : Material)
    (object : Cube) (face : CubeFace) : Intersect :=
  ⟨point, normal, distance, true, material, object, face⟩

/-- The `Intersect::empty`. -/
def Intersect.empty : Intersect :=
  ⟨⟨0, 0, 0⟩, ⟨0, 0, 0⟩, 0, false, Material.black,
    Cube.new ⟨0, 0, 0⟩ ⟨0, 0, 0⟩ Material.black, CubeFace.Top⟩

/-- Modelled from the spec: `intersect.texture_coords()` — local UV of the
hit point, per the spec's UV-derivation table (`p' = (point - min) /
(max - min)`; top/bottom use `(x, z)`, the side faces use the horizontal
coordinate and `1 - p'.y`). -/
def Intersect.texture_coords (it : Intersect) : ℚ × ℚ :=
  let p := Vec3.componentDiv (it.point - it.object.min) (it.object.max - it.object.min)
  match it.face with
  | CubeFace.Top => (p.x, p.z)
  | CubeFace.Bottom => (p.x, p.z)
  | CubeFace.NegX => (p.z, 1 - p.y)
  | CubeFace.PosX => (p.z, 1 - p.y)
  | CubeFace.NegZ => (p.x, 1 - p.y)
  | CubeFace.PosZ => (p.x, 1 - p.y)

/-- The slab vector `t1` of `Cube::ray_intersect`:
`(min - origin) ⊙ (1 / direction)`. -/
def Cube.t1 (c : Cube) (ray_origin ray_direction : Vec3) : Vec3 :=
  Vec3.componentMul (c.min - ray_origin) (Vec3.componentDiv ⟨1, 1, 1⟩ ray_direction)

/-- The slab vector `t2` of `Cube::ray_intersect`:
`(max - origin) ⊙ (1 / direction)`. -/
def Cube.t2 (c : Cube) (ray_origin ray_direction : Vec3) : Vec3 :=
  Vec3.componentMul (c.max - ray_origin) (Vec3.componentDiv ⟨1, 1, 1⟩ ray_direction)

/-- The `tmin` of `Cube::ray_intersect`: the entry parameter
`max` over axes of the per-axis `min` of `t1`/`t2`. -/
def Cube.tEnter (c : Cube) (ray_origin ray_direction : Vec3) : ℚ :=
  let t1 := c.t1 ray_origin ray_direction
  let t2 := c.t2 ray_origin ray_direction
  Max.max (Max.max (Min.min t1.x t2.x) (Min.min t1.y t2.y)) (Min.min t1.z t2.z)

/-- The `tmax` of `Cube::ray_intersect`: the exit parameter
`min` over axes of the per-axis `max` of `t1`/`t2`. -/
def Cube.tExit (c : Cube) (ray_origin ray_direction : Vec3) : ℚ :=
  let t1 := c.t1 ray_origin ray_direction
  let t2 := c.t2 ray_origin ray_direction
  Min.min (Min.min (Max.max t1.x t2.x) (Max.max t1.y t2.y)) (Max.max t1.z t2.z)

/-- The `Cube::ray_intersect` (`src/cube.rs`): slab test; miss when
`tmax < tmin` or `tmin < 0`; otherwise a hit at `t = tmin` whose normal is
chosen by the source's if-chain (X then Y then Z, `t1` before `t2`), whose
material is always `top_material`, and which carries a full copy of the
cube.  The hit face accompanying the normal is modelled from the spec. -/
def Cube.ray_intersect (c : Cube) (ray_origin ray_direction : Vec3) : Intersect :=
  let t1 := c.t1 ray_origin ray_direction
  let t2 := c.t2 ray_origin ray_direction
  let tmin := c.tEnter ray_origin ray_direction
  let tmax := c.tExit ray_origin ray_direction
  if tmax < tmin ∨ tmin < 0 then Intersect.empty
  else
    let point := ray_origin + Vec3.smul tmin ray_direction
    if tmin = t1.x then Intersect.new point ⟨-1, 0, 0⟩ tmin c.top_material c CubeFace.NegX
    else if tmin = t2.x then Intersect.new point ⟨1, 0, 0⟩ tmin c.top_material c CubeFace.PosX
    else if tmin = t1.y then Intersect.new point ⟨0, -1, 0⟩ tmin c.top_material c CubeFace.Bottom
    else if tmin = t2.y then Intersect.new point ⟨0, 1, 0⟩ tmin c.top_material c CubeFace.Top
    else if tmin = t1.z then Intersect.new point ⟨0, 0, -1⟩ tmin c.top_material c CubeFace.NegZ
    else Intersect.new point ⟨0, 0, 1⟩ tmin c.top_material c CubeFace.PosZ

/-- The `ORIGIN_BIAS` (`main.rs`). -/
def ORIGIN_BIAS : ℚ := 1 / 10000

/-- The `SKYBOX_COLOR` (`main.rs`). -/
def SKYBOX_COLOR : Color := Color.new 68 142 228

/-- The `offset_origin` (`main.rs`): displace the hit point by `ORIGIN_BIAS`
along the normal, on the side of the normal the direction points to. -/
def offset_origin (intersect : Intersect) (direction : Vec3) : Vec3 :=
  let offset := Vec3.smul ORIGIN_BIAS intersect.normal
  if Vec3.dot direction intersect.normal < 0 then intersect.point - offset
  else intersect.point + offset

/-- The `reflect` (`main.rs`): `incident - 2 (incident . normal) normal`. -/
def reflect (incident normal : Vec3) : Vec3 :=
  incident - Vec3.smul (2 * Vec3.dot incident normal) normal

/-- The `refract` (`main.rs`): Snell refraction with clamped cosine; on a
negative discriminant (total internal reflection) fall back to `reflect`
against the oriented normal. -/
def refract (F : FloatOps) (incident normal : Vec3) (eta_t : ℚ) : Vec3 :=
  let cosi := -(min (max (Vec3.dot incident normal) (-1)) 1)
  let s : ℚ × ℚ × Vec3 :=
    if cosi < 0 then (-cosi, 1 / eta_t, -normal)
    else (cosi, eta_t, normal)
  let n_cosi := s.1
  let eta := s.2.1
  let n_normal := s.2.2
  let k := 1 - eta * eta * (1 - n_cosi * n_cosi)
  if k < 0 then reflect incident n_normal
  else Vec3.smul eta incident + Vec3.smul (eta * n_cosi - F.sqrt k) n_normal

/-- The `for`/`break` loop of `cast_shadow` (`main.rs`): scan the scene in
order; the first object hit nearer than the light sets the shadow
intensity and stops the scan. -/
def shadowScan (F : FloatOps) (objects : List Cube)
    (shadow_ray_origin light_dir : Vec3) (light_distance : ℚ) : ℚ :=
  match objects with
  | [] => 0
  | object :: rest =>
    let shadow_intersect := object.ray_intersect shadow_ray_origin light_dir
    if shadow_intersect.is_intersecting = true ∧ shadow_intersect.distance < light_distance then
      1 - min (F.powf (shadow_intersect.distance / light_distance) 2) 1
    else shadowScan F rest shadow_ray_origin light_dir light_distance

/-- The `cast_shadow` (`main.rs`). -/
def cast_shadow (F : FloatOps) (intersect : Intersect) (light : Light)
    (objects : List Cube) : ℚ :=
  let light_dir := Vec3.normalize F (light.position - intersect.point)
  let light_distance := Vec3.magnitude F (light.position - intersect.point)
  let shadow_ray_origin := offset_origin intersect light_dir
  shadowScan F objects shadow_ray_origin light_dir light_distance

/-- The `material_color` computation of `cast_ray` (`main.rs`): with a
non-empty texture bank, index `0` for a Top-face hit and `1` otherwise and
sample at the local UV (an out-of-range index is a Rust panic, `none`);
with an empty bank use the material's base color. -/
def surfaceColor (intersect : Intersect) : Option Color :=
  if intersect.material.textures.isEmpty = false then
    let texture_index : ℕ := match intersect.face with
      | CubeFace.Top => 0
      | _ => 1
    let uv := intersect.texture_coords
    (intersect.material.textures.get? texture_index).bind fun t => t.sample uv.1 uv.2
  else some intersect.material.color

/-- One iteration of the nearest-hit loop of `cast_ray` (`main.rs`):
`none` models the initial state (`zbuffer = ∞`, empty intersect); a stored
best is replaced only by a strictly nearer hit. -/
def stepNearest (ray_origin ray_direction : Vec3) (best : Option Intersect)
    (object : Cube) : Option Intersect :=
  let i := object.ray_intersect ray_origin ray_direction
  match best with
  | none => if i.is_intersecting = true then some i else none
  | some b => if i.is_intersecting = true ∧ i.distance < b.distance then some i else some b

/-- The nearest-hit linear scan of `cast_ray` (`main.rs`). -/
def scanNearest (objects : List Cube) (ray_origin ray_direction : Vec3) :
    Option Intersect :=
  objects.foldl (stepNearest ray_origin ray_direction) none

/-- The shading tail of `cast_ray` (`main.rs`) after the nearest hit has
been selected; `recur` performs the recursive `cast_ray` calls at
`depth + 1`.  `none` propagates a texture-indexing panic. -/
def shadeHit (F : FloatOps) (recur : Vec3 → Vec3 → Option Color)
    (ray_origin ray_direction : Vec3) (intersect : Intersect)
    (objects : List Cube) (light : Light) : Option Color :=
  (surfaceColor intersect).bind fun material_color =>
  let light_dir := Vec3.normalize F (light.position - intersect.point)
  let view_dir := Vec3.normalize F (ray_origin - intersect.point)
  let reflect_dir := Vec3.normalize F (reflect (-light_dir) intersect.normal)
  let shadow_intensity := cast_shadow F intersect light objects
  let light_intensity := light.intensity * (1 - shadow_intensity)
  let diffuse_intensity := min (max (Vec3.dot intersect.normal light_dir) 0) 1
  let diffuse := ((material_color.mulScalar intersect.material.properties.1).mulScalar
    diffuse_intensity).mulScalar light_intensity
  let specular_intensity :=
    F.powf (max (Vec3.dot view_dir reflect_dir) 0) intersect.material.shininess
  let specular := ((light.color.mulScalar intersect.material.properties.2.1).mulScalar
    specular_intensity).mulScalar light_intensity
  let reflectivity := intersect.material.properties.2.2.1
  (if 0 < reflectivity then
    let rdir := Vec3.normalize F (reflect ray_direction intersect.normal)
    recur (offset_origin intersect rdir) rdir
  else some Color.black).bind fun reflect_color =>
  let transparency := intersect.material.properties.2.2.2
  (if 0 < transparency then
    let rdir := refract F ray_direction intersect.normal intersect.material.refractive_index
    recur (offset_origin intersect rdir) rdir
  else some Color.black).bind fun refract_color =>
  some (((diffuse + specular).mulScalar (1 - reflectivity - transparency) +
    reflect_color.mulScalar reflectivity) + refract_color.mulScalar transparency)

/-- The `cast_ray` (`main.rs`): above `MAX_DEPTH = 3` return the skybox color;
otherwise select the nearest hit by linear scan and shade it, recursing at
`depth + 1` for the reflective and refractive contributions. -/
def castRay (F : FloatOps) (ray_origin ray_direction : Vec3)
    (objects : List Cube) (light : Light) (depth : ℕ) : Option Color :=
  if _h : 3 < depth then some SKYBOX_COLOR
  else
    match scanNearest objects ray_origin ray_direction with
    | none => some SKYBOX_COLOR
    | some intersect =>
      shadeHit F (fun o d => castRay F o d objects light (depth + 1))
        ray_origin ray_direction intersect objects light
termination_by 4 - depth
decreasing_by omega

/-- Fuel-indexed restatement of `cast_ray`: recursion is paid for by an
explicit fuel that every recursive call decrements; exhausted fuel yields
the skybox color.  Used to state the depth bound of the shader. -/
def castRayFuel (F : FloatOps) (fuel : ℕ) (ray_origin ray_direction : Vec3)
    (objects : List Cube) (light : Light) (depth : ℕ) : Option Color :=
  match fuel with
  | 0 => some SKYBOX_COLOR
  | fuel + 1 =>
    if 3 < depth then some SKYBOX_COLOR
    else
      match scanNearest objects ray_origin ray_direction with
      | none => some SKYBOX_COLOR
      | some intersect =>
        shadeHit F (fun o d => castRayFuel F fuel o d objects light (depth + 1))
          ray_origin ray_direction intersect objects light

/-- The outward unit normal of each face class of an axis-aligned box. -/
def outwardNormal : CubeFace → Vec3
  | CubeFace.NegX => ⟨-1, 0, 0⟩
  | CubeFace.PosX => ⟨1, 0, 0⟩
  | CubeFace.Bottom => ⟨0, -1, 0⟩
  | CubeFace.Top => ⟨0, 1, 0⟩
  | CubeFace.NegZ => ⟨0, 0, -1⟩
  | CubeFace.PosZ => ⟨0, 0, 1⟩

/-- The slab parameter (`t1` for a `min`-plane, `t2` for a `max`-plane) of
each face of a box for a given ray. -/
def slabValue (c : Cube) (ray_origin ray_direction : Vec3) : CubeFace → ℚ
  | CubeFace.NegX => (c.t1 ray_origin ray_direction).x
  | CubeFace.PosX => (c.t2 ray_origin ray_direction).x
  | CubeFace.Bottom => (c.t1 ray_origin ray_direction).y
  | CubeFace.Top => (c.t2 ray_origin ray_direction).y
  | CubeFace.NegZ => (c.t1 ray_origin ray_direction).z
  | CubeFace.PosZ => (c.t2 ray_origin ray_direction).z

/-- The fixed tie-breaking order of the faces: axis X then Y then Z, the
`min`-plane of an axis before its `max`-plane. -/
def faceOrder : List CubeFace :=
  [CubeFace.NegX, CubeFace.PosX, CubeFace.Bottom, CubeFace.Top,
    CubeFace.NegZ, CubeFace.PosZ]

/-- The refraction routine exactly as claim C2 words it: `cosi =
clamp(-I.N, -1, 1)`; when `cosi < 0` flip the cosine sign, set `eta` to
`eta_t` and flip `N`; otherwise `eta = 1/eta_t`; `k = 1 - eta^2 (1 -
cosi^2)`; if `k < 0` reflect against the oriented normal, else `eta I +
(eta cosi - sqrt k) N_oriented`. -/
def claimRefract (F : FloatOps) (incident normal : Vec3) (eta_t : ℚ) : Vec3 :=
  let cosi := min (max (-(Vec3.dot incident normal)) (-1)) 1
  let s : ℚ × Vec3 := if cosi < 0 then (eta_t, -normal) else (1 / eta_t, normal)
  let eta := s.1
  let n_oriented := s.2
  let k := 1 - eta ^ 2 * (1 - cosi ^ 2)
  if k < 0 then reflect incident n_oriented
  else Vec3.smul eta incident + Vec3.smul (eta * cosi - F.sqrt k) n_oriented

/-- The refraction routine as the amended claim words it: the branch taken
when `cosi < 0` flips the cosine sign, sets `eta = 1/eta_t` and flips `N`;
the other branch keeps `cosi` and `N` and sets `eta = eta_t`; the final
formula uses the oriented (sign-flipped) cosine throughout. -/
def amendedRefract (F : FloatOps) (incident normal : Vec3) (eta_t : ℚ) : Vec3 :=
  let cosi := min (max (-(Vec3.dot incident normal)) (-1)) 1
  let s : ℚ × ℚ × Vec3 :=
    if cosi < 0 then (-cosi, 1 / eta_t, -normal) else (cosi, eta_t, normal)
  let cosi_oriented := s.1
  let eta := s.2.1
  let n_oriented := s.2.2
  let k := 1 - eta ^ 2 * (1 - cosi_oriented ^ 2)
  if k < 0 then reflect incident n_oriented
  else Vec3.smul eta incident + Vec3.smul (eta * cosi_oriented - F.sqrt k) n_oriented

/-- The surface-color selection as the amended claim C3 words it: an empty
bank yields the base color; a Top-face hit samples the first texture; any
other face samples the second texture, which exists only when the bank has
at least two entries (a one-texture bank panics there, yielding `none`). -/
def specSurfaceColor (intersect : Intersect) : Option Color :=
  let uv := intersect.texture_coords
  match intersect.material.textures, intersect.face with
  | [], _ => some intersect.material.color
  | t :: _, CubeFace.Top => t.sample uv.1 uv.2
  | _ :: t :: _, _ => t.sample uv.1 uv.2
  | _ :: [], _ => none

/-- The shading tail of `cast_ray` with the effective light intensity
abstracted out, as claim C6 words it: the shader scales both the diffuse
and the specular term by one common effective intensity. -/
def shadePhongWith (F : FloatOps) (eff_intensity : ℚ)
    (recur : Vec3 → Vec3 → Option Color)
    (ray_origin ray_direction : Vec3) (intersect : Intersect)
    (light : Light) : Option Color :=
  (surfaceColor intersect).bind fun material_color =>
  let light_dir := Vec3.normalize F (light.position - intersect.point)
  let view_dir := Vec3.normalize F (ray_origin - intersect.point)
  let reflect_dir := Vec3.normalize F (reflect (-light_dir) intersect.normal)
  let diffuse_intensity := min (max (Vec3.dot intersect.normal light_dir) 0) 1
  let diffuse := ((material_color.mulScalar intersect.material.properties.1).mulScalar
    diffuse_intensity).mulScalar eff_intensity
  let specular_intensity :=
    F.powf (max (Vec3.dot view_dir reflect_dir) 0) intersect.material.shininess
  let specular := ((light.color.mulScalar intersect.material.properties.2.1).mulScalar
    specular_intensity).mulScalar eff_intensity
  let reflectivity := intersect.material.properties.2.2.1
  (if 0 < reflectivity then
    let rdir := Vec3.normalize F (reflect ray_direction intersect.normal)
    recur (offset_origin intersect rdir) rdir
  else some Color.black).bind fun reflect_color =>
  let transparency := intersect.material.properties.2.2.2
  (if 0 < transparency then
    let rdir := refract F ray_direction intersect.normal intersect.material.refractive_index
    recur (offset_origin intersect rdir) rdir
  else some Color.black).bind fun refract_color =>
  some (((diffuse + specular).mulScalar (1 - reflectivity - transparency) +
    reflect_color.mulScalar reflectivity) + refract_color.mulScalar transparency)

/-- A concrete interpretation of the abstract float operations, used by
the witnesses: a square root that is identically zero and a power that
truncates its exponent to a natural number. -/
def Fwit : FloatOps :=
  ⟨fun _ => 0, fun x e => x ^ (⌊e⌋ : ℤ).toNat⟩

/-- Componentwise form of `Vec3` addition. -/
lemma Vec3.add_mk (a b : Vec3) : a + b = ⟨a.x + b.x, a.y + b.y, a.z + b.z⟩ := rfl

/-- Componentwise form of `Vec3` subtraction. -/
lemma Vec3.sub_mk (a b : Vec3) : a - b = ⟨a.x - b.x, a.y - b.y, a.z - b.z⟩ := rfl

/-- Componentwise form of `Vec3` negation. -/
lemma Vec3.neg_mk (a : Vec3) : -a = ⟨-a.x, -a.y, -a.z⟩ := rfl

/-- Negating a clamp to `[-1, 1]` clamps the negation. -/
lemma neg_clamp_eq (q : ℚ) :
    min (max (-q) (-1)) 1 = -(min (max q (-1)) 1) := by
  simp only [min_def, max_def]
  split_ifs <;> linarith

/-- Claim C2 (amended): `refract` computes the clamped cosine of the
incident direction against the normal; when that cosine is negative it
flips the cosine sign, sets `eta = 1/eta_t` and flips the normal, and
otherwise sets `eta = eta_t` and keeps the normal; then
`k = 1 - eta^2 (1 - cosi_oriented^2)`, returning
`reflect(I, N_oriented)` when `k < 0` (total internal reflection) and
`eta I + (eta cosi_oriented - sqrt k) N_oriented` otherwise. -/
theorem refract_correct (F : FloatOps) (incident normal : Vec3) (eta_t : ℚ) :
    refract F incident normal eta_t = amendedRefract F incident normal eta_t := by
  unfold refract amendedRefract
  rw [neg_clamp_eq (Vec3.dot incident normal)]
  simp only [pow_two]

/-- Claim C2 counterexample: at `I = (3/5, 0, -4/5)`, `N = (0, 0, 1)`,
`eta_t = 5/4` (a hit from outside, so the clamped cosine is
non-negative), the code uses `eta = eta_t` while the claim's wording
assigns `eta = 1/eta_t` to this branch, and the two directions disagree
already in their x components (`3/4` against `12/25`), for any value of
the square root. -/
theorem refract_claim_cex :
    refract Fwit ⟨3/5, 0, -4/5⟩ ⟨0, 0, 1⟩ (5/4) ≠
      claimRefract Fwit ⟨3/5, 0, -4/5⟩ ⟨0, 0, 1⟩ (5/4) := by
  norm_num [refract, claimRefract, Fwit, reflect, Vec3.dot, Vec3.smul,
    min_def, max_def, Vec3.mk.injEq, Vec3.add_mk, Vec3.sub_mk, Vec3.neg_mk]

/-- Pushing an integral offset through the saturating cast of a
non-negative rational. -/
lemma ratAsUsize_add_nat (q : ℚ) (w : ℕ) (hq : 0 ≤ q) :
    ratAsUsize (q + w) = ratAsUsize q + w := by
  unfold ratAsUsize
  rw [Int.floor_add_nat]
  have h0 : 0 ≤ ⌊q⌋ := Int.floor_nonneg.mpr hq
  omega

/-- The pixel column of `get_color` is invariant under a `+1` shift of a
non-negative `u` coordinate. -/
lemma usizeMod_shift (q : ℚ) (w : ℕ) (hq : 0 ≤ q) :
    usizeMod (ratAsUsize (q + w)) w = usizeMod (ratAsUsize q) w := by
  unfold usizeMod
  rcases Nat.eq_zero_or_pos w with hw | hw
  · simp [hw]
  · rw [if_neg (by omega), if_neg (by omega), ratAsUsize_add_nat q w hq,
      Nat.add_mod_right]

/-- Claim C8 (amended): texture sampling wraps with period 1 in each
coordinate for non-negative coordinates; a negative coordinate is instead
collapsed to the first row or column by the saturating float-to-`usize`
cast, so the wrap identity can fail there. -/
theorem texture_wrap (t : Texture) (u v : ℚ) :
    (0 ≤ u → t.sample u v = t.sample (u + 1) v) ∧
    (0 ≤ v → t.sample u v = t.sample u (v + 1)) := by
  constructor
  · intro hu
    unfold Texture.sample Texture.get_color
    have h : (u + 1) * (t.width : ℚ) = u * t.width + t.width := by ring
    rw [h, usizeMod_shift (u * t.width) t.width
      (mul_nonneg hu (by positivity))]
  · intro hv
    unfold Texture.sample Texture.get_color
    have h : (v + 1) * (t.height : ℚ) = v * t.height + t.height := by ring
    rw [h, usizeMod_shift (v * t.height) t.height
      (mul_nonneg hv (by positivity))]

/-- A two-pixel-wide texture that tells its two columns apart. -/
def texC8 : Texture := ⟨[0, 0, 0, 255, 255, 0, 0, 255], 2, 1⟩

/-- Claim C8 counterexample: at `u = -1/2` the saturating cast collapses
the column to `0`, while `u + 1 = 1/2` lands in column `1`, so the two
samples differ and the claimed unconditional wrap identity fails. -/
theorem texture_wrap_cex :
    texC8.sample (-1/2 : ℚ) 0 ≠ texC8.sample ((-1/2 : ℚ) + 1) 0 := by
  have h1 : ratAsUsize ((-1/2 : ℚ) * ((2:ℕ) : ℚ)) = 0 := by
    unfold ratAsUsize; norm_num
  have h2 : ratAsUsize (((-1/2 : ℚ) + 1) * ((2:ℕ) : ℚ)) = 1 := by
    unfold ratAsUsize; norm_num
  have h3 : ratAsUsize ((0 : ℚ) * ((1:ℕ) : ℚ)) = 0 := by
    unfold ratAsUsize; norm_num
  simp only [Texture.sample, Texture.get_color, texC8]
  rw [h1, h2, h3]
  decide

/-- Witness for the amended texture-wrap theorem at `u = 1/3`, `v = 2`. -/
theorem texture_wrap_witness :
    texC8.sample (1/3) 2 = texC8.sample (1/3 + 1) 2 ∧
    texC8.sample (1/3) 2 = texC8.sample (1/3) (2 + 1) :=
  ⟨(texture_wrap texC8 (1/3) 2).1 (by norm_num),
   (texture_wrap texC8 (1/3) 2).2 (by norm_num)⟩

/-- Claim C10: for a texture whose byte array has length exactly
`4 * width * height` with positive dimensions, `get_color` never indexes
out of bounds: every lookup, at any `u` and `v` (negative included),
returns a color. -/
theorem get_color_in_bounds (t : Texture) (u v : ℚ) (hw : 0 < t.width)
    (hh : 0 < t.height) (hlen : t.data.length = 4 * t.width * t.height) :
    ∃ c, t.get_color u v = some c := by
  obtain ⟨data, w, h⟩ := t
  simp only at hw hh hlen
  simp only [Texture.get_color, usizeMod]
  rw [if_neg (by omega), if_neg (by omega)]
  simp only [Option.some_bind]
  have hx : ratAsUsize (u * w) % w < w := Nat.mod_lt _ hw
  have hy : ratAsUsize (v * h) % h < h := Nat.mod_lt _ hh
  generalize hgx : ratAsUsize (u * w) % w = x at *
  generalize hgy : ratAsUsize (v * h) % h = y at *
  have hyx : y * w + x < w * h := by
    calc y * w + x < y * w + w := by omega
    _ = (y + 1) * w := by ring
    _ ≤ h * w := Nat.mul_le_mul_right _ (by omega)
    _ = w * h := Nat.mul_comm _ _
  have hidx : (y * w + x) * 4 + 2 < data.length := by
    rw [hlen]; nlinarith
  generalize hgi : (y * w + x) * 4 = i0 at *
  rw [List.get?_eq_get (show i0 < data.length by omega),
    List.get?_eq_get (show i0 + 1 < data.length by omega),
    List.get?_eq_get (show i0 + 2 < data.length by omega)]
  exact ⟨_, rfl⟩

/-- A one-pixel texture for the in-bounds witness. -/
def tex11 : Texture := ⟨[1, 2, 3, 4], 1, 1⟩

/-- A one-pixel solid texture for the face-selection counterexample. -/
def texSolid : Texture := ⟨[10, 20, 30, 255], 1, 1⟩

/-- A material whose texture bank holds exactly one texture. -/
def matC3 : Material := ⟨Color.new 0 255 0, 50, (1, 0, 0, 0), 1, [texSolid]⟩

/-- The cube carrying `matC3`. -/
def cubeC3 : Cube := Cube.new ⟨0, 0, 0⟩ ⟨1, 1, 1⟩ matC3

/-- A hit on the `+X` (non-Top) face of `cubeC3`. -/
def itC3 : Intersect :=
  ⟨⟨1, 1/2, 1/2⟩, ⟨1, 0, 0⟩, 1, true, matC3, cubeC3, CubeFace.PosX⟩

/-- Claim C3 (amended): with an empty bank the base color is used; a
Top-face hit samples the first texture; a hit on any other face samples
the second texture, so with a one-texture bank every non-Top face indexes
out of bounds (a panic, `none`) instead of reusing the single texture. -/
theorem surface_color_selection (it : Intersect) :
    surfaceColor it = specSurfaceColor it := by
  unfold surfaceColor specSurfaceColor
  cases htex : it.material.textures with
  | nil => simp
  | cons t rest =>
    cases rest with
    | nil => cases hface : it.face <;> simp [List.get?]
    | cons t2 rest2 => cases hface : it.face <;> simp [List.get?]

/-- Claim C3 counterexample: `itC3` hits a non-Top face with a one-texture
bank; the claim says the single texture is used for every face, yet the
single texture samples to a color while the shader's selection indexes
`textures[1]` and panics (`none`). -/
theorem surface_color_claim_cex :
    itC3.material.textures = [texSolid] ∧ itC3.face ≠ CubeFace.Top ∧
    surfaceColor itC3 = none ∧
    texSolid.sample itC3.texture_coords.1 itC3.texture_coords.2 =
      some (Color.new 10 20 30) := by
  refine ⟨rfl, by simp [itC3], ?_, ?_⟩
  · simp [surfaceColor, itC3, matC3, List.get?]
  · simp [Texture.sample, Texture.get_color, texSolid, usizeMod, Nat.mod_one,
      List.get?]

/-- Witness for the in-bounds theorem at a negative `v`. -/
theorem get_color_in_bounds_witness : ∃ c, tex11.get_color (1/3) (-5) = some c :=
  get_color_in_bounds tex11 (1/3) (-5) (by decide) (by decide) (by decide)

/-- Claim C9 (amended): the intersection record depends only on the
cube's geometry and its `top_material`: two cubes sharing `min`, `max`
and `top_material` produce records that agree on every field except the
full-cube copy in `object` (which does carry `side_material` and
`visible_faces`), and on a hit the stored material is always
`top_material`, whatever face was hit. -/
theorem intersect_ignores_side_material (c₁ c₂ : Cube) (o d : Vec3)
    (hmin : c₁.min = c₂.min) (hmax : c₁.max = c₂.max)
    (htop : c₁.top_material = c₂.top_material) :
    ((c₁.ray_intersect o d).point = (c₂.ray_intersect o d).point ∧
     (c₁.ray_intersect o d).normal = (c₂.ray_intersect o d).normal ∧
     (c₁.ray_intersect o d).distance = (c₂.ray_intersect o d).distance ∧
     (c₁.ray_intersect o d).is_intersecting = (c₂.ray_intersect o d).is_intersecting ∧
     (c₁.ray_intersect o d).face = (c₂.ray_intersect o d).face ∧
     (c₁.ray_intersect o d).material = (c₂.ray_intersect o d).material) ∧
    ((c₁.ray_intersect o d).is_intersecting = true →
      (c₁.ray_intersect o d).material = c₁.top_material) := by
  obtain ⟨min₁, max₁, top₁, side₁, vis₁⟩ := c₁
  obtain ⟨min₂, max₂, top₂, side₂, vis₂⟩ := c₂
  replace hmin : min₁ = min₂ := hmin
  replace hmax : max₁ = max₂ := hmax
  replace htop : top₁ = top₂ := htop
  subst hmin
  subst hmax
  subst htop
  simp only [Cube.ray_intersect, Cube.t1, Cube.t2, Cube.tEnter, Cube.tExit]
  split_ifs <;> simp [Intersect.new, Intersect.empty]

/-- A plain red material. -/
def matA : Material := Material.new (Color.new 80 0 0) 1 (1, 0, 0, 0) 0

/-- A plain ivory material, distinguishable from `matA`. -/
def matB : Material := Material.new (Color.new 100 100 80) 50 (1, 0, 0, 0) 0

/-- A unit cube whose sides share the top material. -/
def cubeA : Cube := ⟨⟨0, 0, 0⟩, ⟨1, 1, 1⟩, matA, matA, []⟩

/-- The same cube differing from `cubeA` only in `side_material`. -/
def cubeB : Cube := ⟨⟨0, 0, 0⟩, ⟨1, 1, 1⟩, matA, matB, []⟩

/-- Evaluation of the diagonal test ray against `cubeA`. -/
lemma cubeA_hit :
    cubeA.ray_intersect ⟨-1, -1, -1⟩ ⟨1, 1, 1⟩ =
      ⟨⟨0, 0, 0⟩, ⟨-1, 0, 0⟩, 1, true, matA, cubeA, CubeFace.NegX⟩ := by
  norm_num [Cube.ray_intersect, Cube.t1, Cube.t2, Cube.tEnter, Cube.tExit,
    Vec3.componentMul, Vec3.componentDiv, Vec3.sub_mk, Vec3.add_mk, Vec3.smul,
    cubeA, min_def, max_def, Intersect.new]

/-- Evaluation of the diagonal test ray against `cubeB`. -/
lemma cubeB_hit :
    cubeB.ray_intersect ⟨-1, -1, -1⟩ ⟨1, 1, 1⟩ =
      ⟨⟨0, 0, 0⟩, ⟨-1, 0, 0⟩, 1, true, matA, cubeB, CubeFace.NegX⟩ := by
  norm_num [Cube.ray_intersect, Cube.t1, Cube.t2, Cube.tEnter, Cube.tExit,
    Vec3.componentMul, Vec3.componentDiv, Vec3.sub_mk, Vec3.add_mk, Vec3.smul,
    cubeB, min_def, max_def, Intersect.new]

/-- Claim C9 counterexample: `cubeA` and `cubeB` differ only in
`side_material`, a ray hits both, and yet the two intersection records
are not identical — the `object` field carries the whole cube, so
`side_material` does influence a field of the returned record. -/
theorem intersect_side_material_cex :
    cubeA.min = cubeB.min ∧ cubeA.max = cubeB.max ∧
    cubeA.top_material = cubeB.top_material ∧
    (cubeA.ray_intersect ⟨-1, -1, -1⟩ ⟨1, 1, 1⟩).is_intersecting = true ∧
    cubeA.ray_intersect ⟨-1, -1, -1⟩ ⟨1, 1, 1⟩ ≠
      cubeB.ray_intersect ⟨-1, -1, -1⟩ ⟨1, 1, 1⟩ := by
  refine ⟨rfl, rfl, rfl, ?_, ?_⟩
  · rw [cubeA_hit]
  · rw [cubeA_hit, cubeB_hit]
    simp [cubeA, cubeB, matA, matB, Material.new, Color.new, Intersect.mk.injEq,
      Cube.mk.injEq, Material.mk.injEq, Color.mk.injEq]

/-- Witness for the side-material-irrelevance theorem on the concrete
cube pair: equal distances, and the stored material is the top one. -/
theorem intersect_ignores_side_material_witness :
    (cubeA.ray_intersect ⟨-1, -1, -1⟩ ⟨1, 1, 1⟩).distance =
      (cubeB.ray_intersect ⟨-1, -1, -1⟩ ⟨1, 1, 1⟩).distance ∧
    (cubeA.ray_intersect ⟨-1, -1, -1⟩ ⟨1, 1, 1⟩).material = cubeA.top_material :=
  ⟨(intersect_ignores_side_material cubeA cubeB ⟨-1, -1, -1⟩ ⟨1, 1, 1⟩
      rfl rfl rfl).1.2.2.1,
   (intersect_ignores_side_material cubeA cubeB ⟨-1, -1, -1⟩ ⟨1, 1, 1⟩
      rfl rfl rfl).2 (by rw [cubeA_hit])⟩

/-- On a hit, `ray_intersect` enters the branch guarded by the negated
miss condition, and every arm of the normal chain records `tmin` as the
distance and `origin + tmin * direction` as the point. -/
lemma ray_intersect_hit_fields (c : Cube) (o d : Vec3)
    (hcond : ¬(c.tExit o d < c.tEnter o d ∨ c.tEnter o d < 0)) :
    (c.ray_intersect o d).is_intersecting = true ∧
    (c.ray_intersect o d).distance = c.tEnter o d ∧
    (c.ray_intersect o d).point = o + Vec3.smul (c.tEnter o d) d := by
  simp only [Cube.ray_intersect]
  rw [if_neg hcond]
  split_ifs <;> simp [Intersect.new]

/-- Claim C4: for a well-formed box (`min < max` on every axis) and a ray
none of whose direction components vanish (so the `f32` idealisation over
`ℚ` is faithful), the slab test misses exactly when `t_exit < t_enter` or
`t_enter < 0`; a ray whose origin lies strictly inside the box always
misses; and on a hit the distance is `t_enter` with hit point
`origin + t_enter * direction`. -/
theorem slab_test_correct (c : Cube) (o d : Vec3)
    (hbox : c.min.x < c.max.x ∧ c.min.y < c.max.y ∧ c.min.z < c.max.z)
    (hd : d.x ≠ 0 ∧ d.y ≠ 0 ∧ d.z ≠ 0) :
    ((c.ray_intersect o d).is_intersecting = false ↔
      (c.tExit o d < c.tEnter o d ∨ c.tEnter o d < 0)) ∧
    ((c.min.x < o.x ∧ o.x < c.max.x) ∧ (c.min.y < o.y ∧ o.y < c.max.y) ∧
      (c.min.z < o.z ∧ o.z < c.max.z) →
      (c.ray_intersect o d).is_intersecting = false) ∧
    ((c.ray_intersect o d).is_intersecting = true →
      (c.ray_intersect o d).distance = c.tEnter o d ∧
      (c.ray_intersect o d).point = o + Vec3.smul (c.tEnter o d) d) := by
  have hmiss : ∀ hcond : c.tExit o d < c.tEnter o d ∨ c.tEnter o d < 0,
      c.ray_intersect o d = Intersect.empty := by
    intro hcond
    simp only [Cube.ray_intersect]
    rw [if_pos hcond]
  refine ⟨?_, ?_, ?_⟩
  · by_cases hcond : c.tExit o d < c.tEnter o d ∨ c.tEnter o d < 0
    · rw [hmiss hcond]
      simpa [Intersect.empty] using hcond
    · have h := ray_intersect_hit_fields c o d hcond
      rw [h.1]
      simp [hcond]
  · intro hin
    have hneg : ∀ (a b w : ℚ), a < 0 → 0 < b → w ≠ 0 →
        min (a * (1 / w)) (b * (1 / w)) < 0 := by
      intro a b w ha hb hw
      rcases lt_or_gt_of_ne hw with hwneg | hwpos
      · have : b * (1 / w) < 0 := mul_neg_of_pos_of_neg hb (by
          rw [one_div]
          exact inv_lt_zero.mpr hwneg)
        exact lt_of_le_of_lt (min_le_right _ _) this
      · have : a * (1 / w) < 0 := mul_neg_of_neg_of_pos ha (by
          rw [one_div]
          exact inv_pos.mpr hwpos)
        exact lt_of_le_of_lt (min_le_left _ _) this
    have hx : min (c.t1 o d).x (c.t2 o d).x < 0 := by
      have e1 : (c.t1 o d).x = (c.min.x - o.x) * (1 / d.x) := rfl
      have e2 : (c.t2 o d).x = (c.max.x - o.x) * (1 / d.x) := rfl
      rw [e1, e2]
      exact hneg _ _ _ (by linarith [hin.1.1]) (by linarith [hin.1.2]) hd.1
    have hy : min (c.t1 o d).y (c.t2 o d).y < 0 := by
      have e1 : (c.t1 o d).y = (c.min.y - o.y) * (1 / d.y) := rfl
      have e2 : (c.t2 o d).y = (c.max.y - o.y) * (1 / d.y) := rfl
      rw [e1, e2]
      exact hneg _ _ _ (by linarith [hin.2.1.1]) (by linarith [hin.2.1.2]) hd.2.1
    have hz : min (c.t1 o d).z (c.t2 o d).z < 0 := by
      have e1 : (c.t1 o d).z = (c.min.z - o.z) * (1 / d.z) := rfl
      have e2 : (c.t2 o d).z = (c.max.z - o.z) * (1 / d.z) := rfl
      rw [e1, e2]
      exact hneg _ _ _ (by linarith [hin.2.2.1]) (by linarith [hin.2.2.2]) hd.2.2
    have henter : c.tEnter o d < 0 := by
      simp only [Cube.tEnter]
      exact max_lt (max_lt hx hy) hz
    rw [hmiss (Or.inr henter)]
    rfl
  · intro hhit
    by_cases hcond : c.tExit o d < c.tEnter o d ∨ c.tEnter o d < 0
    · rw [hmiss hcond] at hhit
      exact absurd hhit (by simp [Intersect.empty])
    · exact (ray_intersect_hit_fields c o d hcond).2

/-- Witness for the slab-test theorem: the unit cube `cubeA` with the
diagonal ray from `(-1, -1, -1)`. -/
theorem slab_test_correct_witness :
    ((cubeA.ray_intersect ⟨-1, -1, -1⟩ ⟨1, 1, 1⟩).is_intersecting = false ↔
      (cubeA.tExit ⟨-1, -1, -1⟩ ⟨1, 1, 1⟩ < cubeA.tEnter ⟨-1, -1, -1⟩ ⟨1, 1, 1⟩ ∨
        cubeA.tEnter ⟨-1, -1, -1⟩ ⟨1, 1, 1⟩ < 0)) ∧
    (((cubeA.min.x < (-1 : ℚ) ∧ (-1 : ℚ) < cubeA.max.x) ∧
      (cubeA.min.y < (-1 : ℚ) ∧ (-1 : ℚ) < cubeA.max.y) ∧
      (cubeA.min.z < (-1 : ℚ) ∧ (-1 : ℚ) < cubeA.max.z)) →
      (cubeA.ray_intersect ⟨-1, -1, -1⟩ ⟨1, 1, 1⟩).is_intersecting = false) ∧
    ((cubeA.ray_intersect ⟨-1, -1, -1⟩ ⟨1, 1, 1⟩).is_intersecting = true →
      (cubeA.ray_intersect ⟨-1, -1, -1⟩ ⟨1, 1, 1⟩).distance =
        cubeA.tEnter ⟨-1, -1, -1⟩ ⟨1, 1, 1⟩ ∧
      (cubeA.ray_intersect ⟨-1, -1, -1⟩ ⟨1, 1, 1⟩).point =
        (⟨-1, -1, -1⟩ : Vec3) + Vec3.smul (cubeA.tEnter ⟨-1, -1, -1⟩ ⟨1, 1, 1⟩)
          ⟨1, 1, 1⟩) :=
  slab_test_correct cubeA ⟨-1, -1, -1⟩ ⟨1, 1, 1⟩
    (by norm_num [cubeA]) (by norm_num)

/-- On a hit, the entry parameter is attained by one of the six slab
values. -/
lemma tEnter_mem_slabs (c : Cube) (o d : Vec3) :
    c.tEnter o d = (c.t1 o d).x ∨ c.tEnter o d = (c.t2 o d).x ∨
    c.tEnter o d = (c.t1 o d).y ∨ c.tEnter o d = (c.t2 o d).y ∨
    c.tEnter o d = (c.t1 o d).z ∨ c.tEnter o d = (c.t2 o d).z := by
  simp only [Cube.tEnter]
  rcases max_choice
      (Max.max (Min.min (c.t1 o d).x (c.t2 o d).x) (Min.min (c.t1 o d).y (c.t2 o d).y))
      (Min.min (c.t1 o d).z (c.t2 o d).z) with h | h <;> rw [h]
  · rcases max_choice (Min.min (c.t1 o d).x (c.t2 o d).x)
        (Min.min (c.t1 o d).y (c.t2 o d).y) with h2 | h2 <;> rw [h2]
    · rcases min_choice (c.t1 o d).x (c.t2 o d).x with h3 | h3 <;> rw [h3] <;> tauto
    · rcases min_choice (c.t1 o d).y (c.t2 o d).y with h3 | h3 <;> rw [h3] <;> tauto
  · rcases min_choice (c.t1 o d).z (c.t2 o d).z with h3 | h3 <;> rw [h3] <;> tauto

/-- Claim C5: on every hit, the stored normal is the outward axis unit
vector of a face whose slab value equals `t_enter`, namely the first such
face in the fixed order X before Y before Z with the `min`-plane of an
axis before its `max`-plane; the spec-modelled `face` field records the
same face. -/
theorem normal_matches_face (c : Cube) (o d : Vec3)
    (hhit : (c.ray_intersect o d).is_intersecting = true) :
    ∃ f, List.find? (fun f => decide (slabValue c o d f = c.tEnter o d)) faceOrder
        = some f ∧
      (c.ray_intersect o d).normal = outwardNormal f ∧
      (c.ray_intersect o d).face = f := by
  by_cases hcond : c.tExit o d < c.tEnter o d ∨ c.tEnter o d < 0
  · exfalso
    simp only [Cube.ray_intersect] at hhit
    rw [if_pos hcond] at hhit
    exact absurd hhit (by simp [Intersect.empty])
  · simp only [Cube.ray_intersect]
    rw [if_neg hcond]
    by_cases h1 : c.tEnter o d = (c.t1 o d).x
    · refine ⟨CubeFace.NegX, ?_, ?_, ?_⟩
      · rw [faceOrder, List.find?_cons_of_pos _
          (by simp only [slabValue, decide_eq_true_eq]; exact h1.symm)]
      · rw [if_pos h1]; rfl
      · rw [if_pos h1]; rfl
    · by_cases h2 : c.tEnter o d = (c.t2 o d).x
      · refine ⟨CubeFace.PosX, ?_, ?_, ?_⟩
        · rw [faceOrder, List.find?_cons_of_neg _
            (by simp only [slabValue, decide_eq_true_eq]; exact fun hh => h1 hh.symm),
            List.find?_cons_of_pos _
            (by simp only [slabValue, decide_eq_true_eq]; exact h2.symm)]
        · rw [if_neg h1, if_pos h2]; rfl
        · rw [if_neg h1, if_pos h2]; rfl
      · by_cases h3 : c.tEnter o d = (c.t1 o d).y
        · refine ⟨CubeFace.Bottom, ?_, ?_, ?_⟩
          · rw [faceOrder, List.find?_cons_of_neg _
              (by simp only [slabValue, decide_eq_true_eq]; exact fun hh => h1 hh.symm),
              List.find?_cons_of_neg _
              (by simp only [slabValue, decide_eq_true_eq]; exact fun hh => h2 hh.symm),
              List.find?_cons_of_pos _
              (by simp only [slabValue, decide_eq_true_eq]; exact h3.symm)]
          · rw [if_neg h1, if_neg h2, if_pos h3]; rfl
          · rw [if_neg h1, if_neg h2, if_pos h3]; rfl
        · by_cases h4 : c.tEnter o d = (c.t2 o d).y
          · refine ⟨CubeFace.Top, ?_, ?_, ?_⟩
            · rw [faceOrder, List.find?_cons_of_neg _
                (by simp only [slabValue, decide_eq_true_eq]; exact fun hh => h1 hh.symm),
                List.find?_cons_of_neg _
                (by simp only [slabValue, decide_eq_true_eq]; exact fun hh => h2 hh.symm),
                List.find?_cons_of_neg _
                (by simp only [slabValue, decide_eq_true_eq]; exact fun hh => h3 hh.symm),
                List.find?_cons_of_pos _
                (by simp only [slabValue, decide_eq_true_eq]; exact h4.symm)]
            · rw [if_neg h1, if_neg h2, if_neg h3, if_pos h4]; rfl
            · rw [if_neg h1, if_neg h2, if_neg h3, if_pos h4]; rfl
          · by_cases h5 : c.tEnter o d = (c.t1 o d).z
            · refine ⟨CubeFace.NegZ, ?_, ?_, ?_⟩
              · rw [faceOrder, List.find?_cons_of_neg _
                  (by simp only [slabValue, decide_eq_true_eq]; exact fun hh => h1 hh.symm),
                  List.find?_cons_of_neg _
                  (by simp only [slabValue, decide_eq_true_eq]; exact fun hh => h2 hh.symm),
                  List.find?_cons_of_neg _
                  (by simp only [slabValue, decide_eq_true_eq]; exact fun hh => h3 hh.symm),
                  List.find?_cons_of_neg _
                  (by simp only [slabValue, decide_eq_true_eq]; exact fun hh => h4 hh.symm),
                  List.find?_cons_of_pos _
                  (by simp only [slabValue, decide_eq_true_eq]; exact h5.symm)]
              · rw [if_neg h1, if_neg h2, if_neg h3, if_neg h4, if_pos h5]; rfl
              · rw [if_neg h1, if_neg h2, if_neg h3, if_neg h4, if_pos h5]; rfl
            · have h6 : c.tEnter o d = (c.t2 o d).z := by
                rcases tEnter_mem_slabs c o d with h | h | h | h | h | h <;> tauto
              refine ⟨CubeFace.PosZ, ?_, ?_, ?_⟩
              · rw [faceOrder, List.find?_cons_of_neg _
                  (by simp only [slabValue, decide_eq_true_eq]; exact fun hh => h1 hh.symm),
                  List.find?_cons_of_neg _
                  (by simp only [slabValue, decide_eq_true_eq]; exact fun hh => h2 hh.symm),
                  List.find?_cons_of_neg _
                  (by simp only [slabValue, decide_eq_true_eq]; exact fun hh => h3 hh.symm),
                  List.find?_cons_of_neg _
                  (by simp only [slabValue, decide_eq_true_eq]; exact fun hh => h4 hh.symm),
                  List.find?_cons_of_neg _
                  (by simp only [slabValue, decide_eq_true_eq]; exact fun hh => h5 hh.symm),
                  List.find?_cons_of_pos _
                  (by simp only [slabValue, decide_eq_true_eq]; exact h6.symm)]
              · rw [if_neg h1, if_neg h2, if_neg h3, if_neg h4, if_neg h5]; rfl
              · rw [if_neg h1, if_neg h2, if_neg h3, if_neg h4, if_neg h5]; rfl

/-- Witness for the normal/face-selection theorem: the diagonal ray into
`cubeA` hits, and the selected face is the first minimum-attaining one. -/
theorem normal_matches_face_witness :
    ∃ f, List.find? (fun f => decide (slabValue cubeA ⟨-1, -1, -1⟩ ⟨1, 1, 1⟩ f =
        cubeA.tEnter ⟨-1, -1, -1⟩ ⟨1, 1, 1⟩)) faceOrder = some f ∧
      (cubeA.ray_intersect ⟨-1, -1, -1⟩ ⟨1, 1, 1⟩).normal = outwardNormal f ∧
      (cubeA.ray_intersect ⟨-1, -1, -1⟩ ⟨1, 1, 1⟩).face = f :=
  normal_matches_face cubeA ⟨-1, -1, -1⟩ ⟨1, 1, 1⟩ (by rw [cubeA_hit])

/-- The shadow loop returns the attenuation computed from the first
scene object that occludes the light, scanning in insertion order. -/
lemma shadowScan_eq_find (F : FloatOps) (hpow : ∀ q : ℚ, F.powf q 2 = q ^ 2)
    (objects : List Cube) (sro ldir : Vec3) (L : ℚ) :
    shadowScan F objects sro ldir L =
      (match objects.find? (fun c => (c.ray_intersect sro ldir).is_intersecting &&
          decide ((c.ray_intersect sro ldir).distance < L)) with
       | none => 0
       | some c => 1 - min (((c.ray_intersect sro ldir).distance / L) ^ 2) 1) := by
  induction objects with
  | nil => rfl
  | cons a rest ih =>
    by_cases h : (a.ray_intersect sro ldir).is_intersecting = true ∧
        (a.ray_intersect sro ldir).distance < L
    · rw [shadowScan, if_pos h, List.find?_cons_of_pos _
        (by simp only [Bool.and_eq_true, decide_eq_true_eq]; exact h), hpow]
    · rw [shadowScan, if_neg h, List.find?_cons_of_neg _
        (by simp only [Bool.and_eq_true, decide_eq_true_eq]; exact h), ih]

/-- Claim C6: `cast_shadow` scans the scene in insertion order and stops
at the first object whose hit lies nearer than the light, returning
`1 - min((hit_t / light_distance)^2, 1)` there and `0` when nothing
occludes; and the shader scales its lighting by the one effective
intensity `light.intensity * (1 - shadow_intensity)`. -/
theorem shadow_first_occluder (F : FloatOps) (intersect : Intersect)
    (light : Light) (objects : List Cube)
    (hpow : ∀ q : ℚ, F.powf q 2 = q ^ 2) :
    (cast_shadow F intersect light objects =
      (match objects.find? (fun c =>
          (c.ray_intersect (offset_origin intersect
              (Vec3.normalize F (light.position - intersect.point)))
            (Vec3.normalize F (light.position - intersect.point))).is_intersecting &&
          decide ((c.ray_intersect (offset_origin intersect
              (Vec3.normalize F (light.position - intersect.point)))
            (Vec3.normalize F (light.position - intersect.point))).distance <
              Vec3.magnitude F (light.position - intersect.point))) with
       | none => 0
       | some c => 1 - min (((c.ray_intersect (offset_origin intersect
              (Vec3.normalize F (light.position - intersect.point)))
            (Vec3.normalize F (light.position - intersect.point))).distance /
              Vec3.magnitude F (light.position - intersect.point)) ^ 2) 1)) ∧
    (∀ recur o d, shadeHit F recur o d intersect objects light =
      shadePhongWith F (light.intensity * (1 - cast_shadow F intersect light objects))
        recur o d intersect light) := by
  constructor
  · unfold cast_shadow
    exact shadowScan_eq_find F hpow objects _ _ _
  · intro recur o d
    rfl

/-- A concrete light for the witnesses. -/
def lightW : Light := ⟨⟨4, 1, 5⟩, Color.new 255 255 255, 2, 1⟩

/-- Witness for the shadow theorem: with an empty scene nothing occludes
and the shadow intensity is `0`. -/
theorem shadow_first_occluder_witness :
    cast_shadow Fwit itC3 lightW [] = 0 := by
  have h := (shadow_first_occluder Fwit itC3 lightW []
    (fun q => by norm_num [Fwit, show Int.toNat 2 = 2 from rfl])).1
  simpa using h

/-- The `castRayFuel` computes `cast_ray` whenever the fuel covers the
remaining recursion budget `4 - depth`: the cutoff at `depth > 3` means a
primary ray (`depth = 0`) never performs more than three shading
recursions beyond itself. -/
lemma castRayFuel_eq (F : FloatOps) (objects : List Cube) (light : Light) :
    ∀ (fuel depth : ℕ) (o d : Vec3), 4 - depth ≤ fuel →
      castRayFuel F fuel o d objects light depth = castRay F o d objects light depth := by
  intro fuel
  induction fuel with
  | zero =>
    intro depth o d hle
    have hd : 3 < depth := by omega
    rw [castRay, dif_pos hd]
    rfl
  | succ n ih =>
    intro depth o d hle
    by_cases hd : 3 < depth
    · rw [castRay, dif_pos hd]
      simp only [castRayFuel, if_pos hd]
    · rw [castRay, dif_neg hd]
      simp only [castRayFuel, if_neg hd]
      have hrec : (fun o' d' => castRayFuel F n o' d' objects light (depth + 1)) =
          (fun o' d' => castRay F o' d' objects light (depth + 1)) := by
        funext o' d'
        exact ih (depth + 1) o' d' (by omega)
      rw [hrec]

/-- Claim C7: `cast_ray` is total (it is a function of Lean's logic); any
call deeper than `MAX_DEPTH = 3` returns the skybox color no matter what
the scene holds, and a fuel of `4 - depth` — three recursive calls beyond
a primary ray plus the cutoff call — suffices to compute it exactly. -/
theorem cast_ray_depth_bound (F : FloatOps) (o d : Vec3) (objects : List Cube)
    (light : Light) (depth fuel : ℕ) :
    (3 < depth → castRay F o d objects light depth = some SKYBOX_COLOR) ∧
    (4 - depth ≤ fuel → castRayFuel F fuel o d objects light depth =
      castRay F o d objects light depth) :=
  ⟨fun h => by rw [castRay, dif_pos h],
   fun h => castRayFuel_eq F objects light fuel depth o d h⟩

/-- Witness for the depth-bound theorem: at `depth = 4` the skybox is
returned, and four units of fuel compute a primary ray exactly. -/
theorem cast_ray_depth_bound_witness :
    castRay Fwit ⟨0, 0, 0⟩ ⟨0, 0, 1⟩ [] lightW 4 = some SKYBOX_COLOR ∧
    castRayFuel Fwit 4 ⟨0, 0, 0⟩ ⟨0, 0, 1⟩ [] lightW 0 =
      castRay Fwit ⟨0, 0, 0⟩ ⟨0, 0, 1⟩ [] lightW 0 :=
  ⟨(cast_ray_depth_bound Fwit ⟨0, 0, 0⟩ ⟨0, 0, 1⟩ [] lightW 4 0).1 (by decide),
   (cast_ray_depth_bound Fwit ⟨0, 0, 0⟩ ⟨0, 0, 1⟩ [] lightW 0 4).2 (by decide)⟩

/-- A stored best hit is never discarded by later loop iterations. -/
lemma scanLoop_some (o d : Vec3) (objects : List Cube) (b : Intersect) :
    ∃ r, objects.foldl (stepNearest o d) (some b) = some r := by
  induction objects generalizing b with
  | nil => exact ⟨b, rfl⟩
  | cons a rest ih =>
    simp only [List.foldl_cons]
    have hstep : ∃ b2, stepNearest o d (some b) a = some b2 := by
      simp only [stepNearest]
      split_ifs <;> exact ⟨_, rfl⟩
    obtain ⟨b2, hb2⟩ := hstep
    rw [hb2]
    exact ih b2

/-- The nearest-hit scan comes back empty exactly when no scene object
reports an intersection. -/
lemma scanNearest_none_iff (objects : List Cube) (o d : Vec3) :
    scanNearest objects o d = none ↔
      ∀ cube ∈ objects, (cube.ray_intersect o d).is_intersecting = false := by
  induction objects with
  | nil => simp [scanNearest]
  | cons a rest ih =>
    unfold scanNearest at *
    simp only [List.foldl_cons]
    by_cases ha : (a.ray_intersect o d).is_intersecting = true
    · have hstep : stepNearest o d none a = some (a.ray_intersect o d) := by
        simp only [stepNearest]
        rw [if_pos ha]
      rw [hstep]
      obtain ⟨r, hr⟩ := scanLoop_some o d rest (a.ray_intersect o d)
      rw [hr]
      constructor
      · intro h
        cases h
      · intro h
        exact absurd (h a (by simp)) (by simp [ha])
    · have hstep : stepNearest o d none a = none := by
        simp only [stepNearest]
        rw [if_neg ha]
      rw [hstep, ih]
      constructor
      · intro h cube hc
        rcases List.mem_cons.mp hc with rfl | hc
        · simpa using ha
        · exact h cube hc
      · intro h cube hc
        exact h cube (List.mem_cons_of_mem _ hc)

/-- The nearest-hit scan returns an intersection of some scene cube whose
distance is minimal among all hits, and every cube placed before it in
the scene that hits does so strictly farther away (ties keep the earliest
cube). -/
lemma scanNearest_spec (o d : Vec3) (objects : List Cube) (it : Intersect)
    (h : scanNearest objects o d = some it) :
    ∃ l₁ cube l₂, objects = l₁ ++ cube :: l₂ ∧
      it = cube.ray_intersect o d ∧
      it.is_intersecting = true ∧
      (∀ c' ∈ objects, (c'.ray_intersect o d).is_intersecting = true →
        it.distance ≤ (c'.ray_intersect o d).distance) ∧
      (∀ c' ∈ l₁, (c'.ray_intersect o d).is_intersecting = true →
        it.distance < (c'.ray_intersect o d).distance) := by
  induction objects using List.reverseRecOn generalizing it with
  | nil => simp [scanNearest] at h
  | append_singleton objects cnew ih =>
    unfold scanNearest at h
    rw [List.foldl_append, List.foldl_cons, List.foldl_nil] at h
    cases hprev : List.foldl (stepNearest o d) none objects with
    | none =>
      rw [hprev] at h
      simp only [stepNearest] at h
      split_ifs at h with hc
      · injection h with h
        subst h
        have hmiss := (scanNearest_none_iff objects o d).mp hprev
        refine ⟨objects, cnew, [], rfl, rfl, hc, ?_, ?_⟩
        · intro c' hc' hint
          rcases List.mem_append.mp hc' with hmem | hmem
          · exact absurd hint (by simp [hmiss c' hmem])
          · have heq : c' = cnew := List.mem_singleton.mp hmem
            subst heq
            exact le_refl _
        · intro c' hmem hint
          exact absurd hint (by simp [hmiss c' hmem])
    | some b =>
      rw [hprev] at h
      simp only [stepNearest] at h
      obtain ⟨l₁, cube, l₂, hobj, hb, hbhit, hbmin, hbstrict⟩ := ih b hprev
      split_ifs at h with hc
      · injection h with h
        subst h
        refine ⟨objects, cnew, [], rfl, rfl, hc.1, ?_, ?_⟩
        · intro c' hc' hint
          rcases List.mem_append.mp hc' with hmem | hmem
          · exact le_of_lt (lt_of_lt_of_le hc.2 (hbmin c' hmem hint))
          · have heq : c' = cnew := List.mem_singleton.mp hmem
            subst heq
            exact le_refl _
        · intro c' hmem hint
          exact lt_of_lt_of_le hc.2 (hbmin c' hmem hint)
      · injection h with h
        subst h
        refine ⟨l₁, cube, l₂ ++ [cnew], by rw [hobj]; simp, hb, hbhit, ?_, hbstrict⟩
        intro c' hc' hint
        rcases List.mem_append.mp hc' with hmem | hmem
        · exact hbmin c' hmem hint
        · have heq : c' = cnew := List.mem_singleton.mp hmem
          subst heq
          exact not_lt.mp (not_and.mp hc hint)

/-- A reported hit always lies at a non-negative parameter. -/
lemma ray_intersect_nonneg (c : Cube) (o d : Vec3)
    (hhit : (c.ray_intersect o d).is_intersecting = true) :
    0 ≤ (c.ray_intersect o d).distance := by
  by_cases hcond : c.tExit o d < c.tEnter o d ∨ c.tEnter o d < 0
  · simp only [Cube.ray_intersect] at hhit
    rw [if_pos hcond] at hhit
    exact absurd hhit (by simp [Intersect.empty])
  · have h := ray_intersect_hit_fields c o d hcond
    rw [h.2.1]
    push_neg at hcond
    exact hcond.2

/-- Claim C1: below the depth cutoff, `cast_ray` shades the intersection
selected by the linear scan and falls back to `SKYBOX_COLOR` when no cube
reports a hit; the scan selects a scene cube's hit of minimal
(automatically non-negative) distance, with ties resolved in favour of
the earliest cube in insertion order. -/
theorem cast_ray_nearest_hit (F : FloatOps) (o d : Vec3) (objects : List Cube)
    (light : Light) (depth : ℕ) (hdepth : depth ≤ 3) :
    castRay F o d objects light depth =
      (match scanNearest objects o d with
       | none => some SKYBOX_COLOR
       | some intersect =>
         shadeHit F (fun o' d' => castRay F o' d' objects light (depth + 1))
           o d intersect objects light) ∧
    (scanNearest objects o d = none ↔
      ∀ cube ∈ objects, (cube.ray_intersect o d).is_intersecting = false) ∧
    (∀ it, scanNearest objects o d = some it →
      it.is_intersecting = true ∧ 0 ≤ it.distance ∧
      ∃ l₁ cube l₂, objects = l₁ ++ cube :: l₂ ∧
        it = cube.ray_intersect o d ∧
        (∀ c' ∈ objects, (c'.ray_intersect o d).is_intersecting = true →
          it.distance ≤ (c'.ray_intersect o d).distance) ∧
        (∀ c' ∈ l₁, (c'.ray_intersect o d).is_intersecting = true →
          it.distance < (c'.ray_intersect o d).distance)) := by
  refine ⟨?_, scanNearest_none_iff objects o d, ?_⟩
  · rw [castRay, dif_neg (by omega)]
  · intro it hit
    obtain ⟨l₁, cube, l₂, hobj, hb, hbhit, hbmin, hbstrict⟩ :=
      scanNearest_spec o d objects it hit
    have hnn : 0 ≤ it.distance := by
      rw [hb]
      exact ray_intersect_nonneg cube o d (hb ▸ hbhit)
    exact ⟨hbhit, hnn, l₁, cube, l₂, hobj, hb, hbmin, hbstrict⟩

/-- Witness for the nearest-hit theorem: with an empty scene the scan is
empty and a depth-3 ray returns the skybox color. -/
theorem cast_ray_nearest_hit_witness :
    castRay Fwit ⟨0, 0, 0⟩ ⟨0, 0, 1⟩ [] lightW 3 = some SKYBOX_COLOR := by
  have h := (cast_ray_nearest_hit Fwit ⟨0, 0, 0⟩ ⟨0, 0, 1⟩ [] lightW 3
    (by decide)).1
  simpa [scanNearest] using h

end Raytracer
